import Mathlib

/-!
Verification of the layered spatial clipping subsystem (`Clipping`):
group flags, clip-primitive compilation (`getClip`), and the layer
algebra (`remap`, `merge`, `filter`, bundle round trip), shallowly
embedded from the TypeScript source.

Selections ("Loci"), the structure type, bit-flag helpers, bundle
serialization and the vector/quaternion math primitives live in library
modules outside the embedded source; they are modelled from the spec's
collaborator contracts (spec sections 1, 3 and 6) and each such
definition is marked `Modelled from the spec:` in its doc comment.
-/

/-- Modelled from the spec: write into a dynamic (JavaScript) array.
A write below the current length replaces the entry in place; a write at
or past the end grows the array.  In the embedded code every
out-of-bounds write lands exactly at the current length (writes are
issued at consecutive indices), so the padding value is never used. -/
def jsSet [Inhabited α] (l : List α) (i : Nat) (v : α) : List α :=
  if i < l.length then l.set i v
  else l ++ List.replicate (i - l.length) default ++ [v]

/-- Modelled from the spec: a structure is an opaque identity carrying the
set of structural elements it contains; `parent` (when present) records the
element set of the canonical root structure it was derived from. -/
structure Structure where
  elems : Finset Nat
  parent : Option (Finset Nat) := Option.none
deriving DecidableEq

/-- Modelled from the spec: `structure.root` is the canonical/unversioned
structure; a structure without a parent is its own root. -/
def Structure.root (s : Structure) : Structure :=
  match s.parent with
  | Option.none => s
  | Option.some e => { elems := e, parent := Option.none }

/-- Modelled from the spec: a selection (`StructureElement.Loci`) is an
opaque set of structural elements bound to a specific structure. -/
structure Loci where
  structure_ : Structure
  elems : Finset Nat
deriving DecidableEq

/-- Modelled from the spec: the empty selection on a structure. -/
def Loci.none (s : Structure) : Loci :=
  { structure_ := s, elems := ∅ }

/-- Modelled from the spec: selection union (elements of either operand,
bound to the first operand's structure). -/
def Loci.union (a b : Loci) : Loci :=
  { structure_ := a.structure_, elems := a.elems ∪ b.elems }

/-- Modelled from the spec: selection subtraction (elements of the first
operand not in the second). -/
def Loci.subtract (a b : Loci) : Loci :=
  { structure_ := a.structure_, elems := a.elems \ b.elems }

/-- Modelled from the spec: emptiness test of a selection. -/
def Loci.isEmpty (l : Loci) : Bool :=
  decide (l.elems = ∅)

/-- Modelled from the spec: re-express a selection against a (possibly
updated) structure; elements the target structure does not contain drop
out, so the remapped selection can be empty. -/
def Loci.remap (l : Loci) (s : Structure) : Loci :=
  { structure_ := s, elems := l.elems ∩ s.elems }

/-- Modelled from the spec: substrate selection equality (same bound
structure and the same element set). -/
def Loci.areEqual (a b : Loci) : Bool :=
  decide (a = b)

/-- Group flags: a small closed bitset; at runtime a plain integer. -/
abbrev Groups := Nat

def Groups.Flag.None : Nat := 0x0
def Groups.Flag.One : Nat := 0x1
def Groups.Flag.Two : Nat := 0x2
def Groups.Flag.Three : Nat := 0x4
def Groups.Flag.Four : Nat := 0x8
def Groups.Flag.Five : Nat := 0x10
def Groups.Flag.Six : Nat := 0x20

/-- Modelled from the spec: `BitFlags.has`, a bitwise test that the given
flag's bits are all present. -/
def Groups.is (g : Groups) (f : Nat) : Bool :=
  decide (g &&& f = f)

/-- Modelled from the spec: `BitFlags.create` wraps a raw bit pattern. -/
def Groups.create (f : Nat) : Groups := f

/-- Name-recognition predicate: `name in Names`. -/
def Groups.isName (name : String) : Bool :=
  (name = "one") || (name = "two") || (name = "three") ||
  (name = "four") || (name = "five") || (name = "six")

/-- The `fromName` switch.  The source `switch` has no `default` branch, so
an unrecognized token falls through and the function returns `undefined`;
the embedding returns `Option.none` in that case. -/
def Groups.fromName (name : String) : Option Nat :=
  match name with
  | "one" => Option.some Groups.Flag.One
  | "two" => Option.some Groups.Flag.Two
  | "three" => Option.some Groups.Flag.Three
  | "four" => Option.some Groups.Flag.Four
  | "five" => Option.some Groups.Flag.Five
  | "six" => Option.some Groups.Flag.Six
  | _ => Option.none

/-- The `fromNames` fold: `f |= fromName(names[i])`.  In JavaScript,
bitwise-or with `undefined` coerces `undefined` to `0` and leaves `f`
unchanged, which the embedding renders as `(fromName n).getD 0`. -/
def Groups.fromNames (names : List String) : Nat :=
  names.foldl (fun f n => f ||| (Groups.fromName n).getD 0) Groups.Flag.None

/-- The `toNames` enumeration: tests the six bits in the fixed order
one, two, three, four, five, six and pushes the set ones. -/
def Groups.toNames (groups : Groups) : List String :=
  (if Groups.is groups Groups.Flag.One then ["one"] else []) ++
  (if Groups.is groups Groups.Flag.Two then ["two"] else []) ++
  (if Groups.is groups Groups.Flag.Three then ["three"] else []) ++
  (if Groups.is groups Groups.Flag.Four then ["four"] else []) ++
  (if Groups.is groups Groups.Flag.Five then ["five"] else []) ++
  (if Groups.is groups Groups.Flag.Six then ["six"] else [])

/-- Clip object type tokens (`Clipping.Type` keys in the source). -/
inductive ClipTypeName where
  | none
  | plane
  | sphere
  | cube
  | cylinder
  | infiniteCone
deriving DecidableEq

/-- The `Clipping.Type` integer mapping, a stable renderer contract. -/
def clipTypeValue : ClipTypeName → Nat
  | ClipTypeName.none => 0
  | ClipTypeName.plane => 1
  | ClipTypeName.sphere => 2
  | ClipTypeName.cube => 3
  | ClipTypeName.cylinder => 4
  | ClipTypeName.infiniteCone => 5

/-- Rendering variant (`'instance' | 'pixel'`); `instance` is a reserved
word in Lean, so the first constructor carries a trailing underscore. -/
inductive Variant where
  | instance_
  | pixel
deriving DecidableEq

/-- The compiled clip-primitive columnar arrays (`Clipping.Objects`). -/
structure Objects where
  count : Nat
  type : List Nat
  invert : List Bool
  position : List ℚ
  rotation : List ℚ
  scale : List ℚ
deriving DecidableEq

/-- `createClipObjects`: fresh fixed-capacity arrays (5 slots). -/
def createClipObjects : Objects :=
  { count := 0
    type := List.replicate 5 1
    invert := List.replicate 5 false
    position := List.replicate (5 * 3) 0
    rotation := List.replicate (5 * 4) 0
    scale := List.replicate (5 * 3) 1 }

/-- One clipping layer: a selection plus its group flags. -/
structure Layer where
  loci : Loci
  groups : Groups
deriving DecidableEq

/-- The clipping aggregate. -/
structure Clipping where
  layers : List Layer
  variant : Variant
  objects : Objects
deriving DecidableEq

/-- The compile result pair (`Clipping.Clip`). -/
structure Clip where
  variant : Variant
  objects : Objects
deriving DecidableEq

/-- `Clipping.Empty`. -/
def Clipping.Empty : Clipping :=
  { layers := [], variant := Variant.pixel, objects := createClipObjects }

/-- Check if layers empty (`Clipping.isEmpty`). -/
def Clipping.isEmpty (c : Clipping) : Bool :=
  decide (c.layers.length = 0)

/-- Modelled from the spec: a 3-vector of the math substrate. -/
structure Vec3 where
  x : ℚ
  y : ℚ
  z : ℚ
deriving DecidableEq

/-- Modelled from the spec: a quaternion of the math substrate. -/
structure Quat where
  x : ℚ
  y : ℚ
  z : ℚ
  w : ℚ
deriving DecidableEq

/-- Modelled from the spec: the external math primitives (π and the
trigonometric functions) used by angle conversion and quaternion
construction; kept abstract so the embedding stays computable. -/
structure MathPrims where
  pi : ℚ
  sin : ℚ → ℚ
  cos : ℚ → ℚ

/-- Modelled from the spec: degree-to-radian conversion. -/
def degToRad (mp : MathPrims) (deg : ℚ) : ℚ :=
  deg * (mp.pi / 180)

/-- Modelled from the spec: `Quat.setAxisAngle` builds the unit quaternion
for (axis, angle): half the angle, sine times the axis, cosine as `w`. -/
def Quat.setAxisAngle (mp : MathPrims) (axis : Vec3) (rad : ℚ) : Quat :=
  { x := axis.x * mp.sin (rad * (1 / 2))
    y := axis.y * mp.sin (rad * (1 / 2))
    z := axis.z * mp.sin (rad * (1 / 2))
    w := mp.cos (rad * (1 / 2)) }

/-- Modelled from the spec: `Vec3.toArray` writes the three components at
`offset`, `offset+1`, `offset+2` of a flat array. -/
def Vec3.toArray (v : Vec3) (arr : List ℚ) (offset : Nat) : List ℚ :=
  jsSet (jsSet (jsSet arr offset v.x) (offset + 1) v.y) (offset + 2) v.z

/-- Modelled from the spec: `Quat.toArray` writes the four components at
`offset` .. `offset+3` of a flat array. -/
def Quat.toArray (q : Quat) (arr : List ℚ) (offset : Nat) : List ℚ :=
  jsSet (jsSet (jsSet (jsSet arr offset q.x) (offset + 1) q.y) (offset + 2) q.z) (offset + 3) q.w

/-- Modelled from the spec: `Vec3.fromArray` reads three components at
`offset` of a flat array (reads past the end never occur for in-range
primitive slots). -/
def Vec3.fromArray (arr : List ℚ) (offset : Nat) : Vec3 :=
  { x := arr.getD offset 0, y := arr.getD (offset + 1) 0, z := arr.getD (offset + 2) 0 }

/-- Modelled from the spec: `Quat.fromArray` reads four components at
`offset` of a flat array. -/
def Quat.fromArray (arr : List ℚ) (offset : Nat) : Quat :=
  { x := arr.getD offset 0, y := arr.getD (offset + 1) 0
    z := arr.getD (offset + 2) 0, w := arr.getD (offset + 3) 0 }

/-- The rotation sub-record of one clip-object descriptor. -/
structure RotationProps where
  axis : Vec3
  angle : ℚ
deriving DecidableEq

/-- One clip-object descriptor of `Clipping.Props`. -/
structure ClipObjectProp where
  type : ClipTypeName
  invert : Bool
  position : Vec3
  rotation : RotationProps
  scale : Vec3
deriving DecidableEq

/-- The user-facing parameter values (`Clipping.Props`). -/
structure Props where
  variant : Variant
  objects : List ClipObjectProp
deriving DecidableEq

/-- The body of one iteration of the `getClip` write loop: descriptor `p`
at index `i` writes its type, invert flag, position, quaternion and scale
into the flat arrays. -/
def clipStep (mp : MathPrims) (o : Objects) (i : Nat) (p : ClipObjectProp) : Objects :=
  { o with
    type := jsSet o.type i (clipTypeValue p.type)
    invert := jsSet o.invert i p.invert
    position := Vec3.toArray p.position o.position (i * 3)
    rotation := Quat.toArray (Quat.setAxisAngle mp p.rotation.axis (degToRad mp p.rotation.angle)) o.rotation (i * 4)
    scale := Vec3.toArray p.scale o.scale (i * 3) }

/-- The `for (let i = 0; i < props.objects.length; ++i)` loop of
`getClip`, with the running index made explicit. -/
def clipWriteLoop (mp : MathPrims) (ps : List ClipObjectProp) (i : Nat) (o : Objects) : Objects :=
  match ps with
  | [] => o
  | p :: rest => clipWriteLoop mp rest (i + 1) (clipStep mp o i p)

/-- `Clipping.getClip`: compile the descriptor list into the (reused or
freshly created) flat arrays and set `count` to the descriptor count. -/
def getClip (mp : MathPrims) (props : Props) (clip : Option Clip) : Clip :=
  let objs :=
    match clip with
    | Option.some c => c.objects
    | Option.none => createClipObjects
  let final := clipWriteLoop mp props.objects 0 objs
  { variant := props.variant
    objects :=
      { count := props.objects.length
        type := final.type
        invert := final.invert
        position := final.position
        rotation := final.rotation
        scale := final.scale } }

/-- `Clipping.areEqual`: same layer count, per-layer equal groups and
loci-equal selections, same variant, same primitive count, and per active
primitive slot equal invert/type and componentwise-equal
position/scale/rotation. -/
def Clipping.areEqual (cA cB : Clipping) : Bool :=
  decide (cA.layers.length = cB.layers.length) &&
  ((cA.layers.zip cB.layers).all fun p =>
    decide (p.1.groups = p.2.groups) && Loci.areEqual p.1.loci p.2.loci) &&
  decide (cA.variant = cB.variant) &&
  decide (cA.objects.count = cB.objects.count) &&
  ((List.range cA.objects.count).all fun i =>
    decide (cA.objects.invert.getD i false = cB.objects.invert.getD i false) &&
    decide (cA.objects.type.getD i 0 = cB.objects.type.getD i 0) &&
    decide (Vec3.fromArray cA.objects.position (i * 3) = Vec3.fromArray cB.objects.position (i * 3)) &&
    decide (Vec3.fromArray cA.objects.scale (i * 3) = Vec3.fromArray cB.objects.scale (i * 3)) &&
    decide (Quat.fromArray cA.objects.rotation (i * 4) = Quat.fromArray cB.objects.rotation (i * 4)))

/-- `Clipping.remap`: remap every layer's selection onto `s`, dropping
layers whose remapped selection is empty; order preserved. -/
def Clipping.remap (c : Clipping) (s : Structure) : Clipping :=
  { layers :=
      c.layers.filterMap fun layer =>
        let loci := Loci.remap layer.loci s
        if Loci.isEmpty loci then Option.none
        else Option.some { loci := loci, groups := layer.groups }
    variant := c.variant
    objects := c.objects }

/-- The lookup in the group-keyed `Map` of `merge` (first entry wins;
keys are unique throughout). -/
def mapGet (m : List (Groups × Loci)) (k : Groups) : Option Loci :=
  (m.find? fun p => decide (p.1 = k)).map Prod.snd

/-- The `Map.has` test of `merge`. -/
def mapHas (m : List (Groups × Loci)) (k : Groups) : Bool :=
  (m.find? fun p => decide (p.1 = k)).isSome

/-- The `Map.set` of `merge`: replace the value of an existing key in
place (JavaScript `Map` keeps the key's original insertion position) or
append a new entry at the end. -/
def mapSet (m : List (Groups × Loci)) (k : Groups) (v : Loci) : List (Groups × Loci) :=
  if mapHas m k then m.map fun p => if p.1 = k then (k, v) else p
  else m ++ [(k, v)]

/-- One iteration of the reverse loop of `merge`: subtract the shadowed
accumulator from the layer's selection, add the exclusive remainder to the
accumulator, and (when non-empty) union it into the map entry for the
layer's group key. -/
def mergeStep (acc : Loci × List (Groups × Loci)) (layer : Layer) : Loci × List (Groups × Loci) :=
  let loci := Loci.subtract layer.loci acc.1
  let shadowed := Loci.union loci acc.1
  if Loci.isEmpty loci then (shadowed, acc.2)
  else
    let loci' :=
      match mapGet acc.2 layer.groups with
      | Option.some prev => Loci.union loci prev
      | Option.none => loci
    (shadowed, mapSet acc.2 layer.groups loci')

/-- The group-keyed map accumulated by `merge`'s backward pass over the
layers (the `// process from end` loop). -/
def mergeMap (layers : List Layer) (s : Structure) : List (Groups × Loci) :=
  (layers.reverse.foldl mergeStep (Loci.none s, [])).2

/-- `Clipping.merge`: return the input unchanged when it has no layers,
otherwise emit one layer per map entry, in insertion order. -/
def Clipping.merge (c : Clipping) : Clipping :=
  match c.layers with
  | [] => c
  | l0 :: _ =>
    { layers := (mergeMap c.layers l0.loci.structure_).map fun p => { loci := p.2, groups := p.1 }
      variant := c.variant
      objects := c.objects }

/-- `Clipping.filter`: double remap (onto the filter structure and back
onto the clipping's own structure), dropping layers that become empty. -/
def Clipping.filter (c : Clipping) (f : Structure) : Clipping :=
  match c.layers with
  | [] => c
  | l0 :: _ =>
    { layers :=
        c.layers.filterMap fun layer =>
          let filtered := Loci.remap layer.loci f
          let loci := Loci.remap filtered l0.loci.structure_
          if Loci.isEmpty loci then Option.none
          else Option.some { loci := loci, groups := layer.groups }
      variant := c.variant
      objects := c.objects }

/-- Modelled from the spec: a serialized, structure-independent bundle
reference recording a selection's element set. -/
structure Bundle where
  elems : Finset Nat
deriving DecidableEq

/-- Modelled from the spec: `StructureElement.Bundle.fromLoci` serializes
a selection into a structure-independent reference. -/
def Bundle.fromLoci (l : Loci) : Bundle :=
  { elems := l.elems }

/-- Modelled from the spec: `StructureElement.Bundle.toLoci` resolves a
bundle reference against a structure into a selection (possibly empty
when the structure lacks the referenced elements). -/
def Bundle.toLoci (b : Bundle) (s : Structure) : Loci :=
  { structure_ := s, elems := b.elems ∩ s.elems }

/-- A serialized layer (`Clipping.BundleLayer`). -/
structure BundleLayer where
  bundle : Bundle
  groups : Groups
deriving DecidableEq

/-- The `{ layers }` record returned by `toBundle`. -/
structure BundleLayers where
  layers : List BundleLayer
deriving DecidableEq

/-- `Clipping.ofBundle`: resolve every bundle against `structure.root`;
no filtering of empties — each input bundle yields exactly one layer. -/
def Clipping.ofBundle (bundleLayers : List BundleLayer) (s : Structure) (clip : Clip) : Clipping :=
  { layers := bundleLayers.map fun bl => { loci := Bundle.toLoci bl.bundle s.root, groups := bl.groups }
    variant := clip.variant
    objects := clip.objects }

/-- `Clipping.toBundle`: serialize every layer, one bundle per layer. -/
def Clipping.toBundle (c : Clipping) : BundleLayers :=
  { layers := c.layers.map fun l => { bundle := Bundle.fromLoci l.loci, groups := l.groups } }

/-- Invariant of `merge`'s backward pass, relating the shadowed
accumulator and the group-keyed map: keys are unique, every stored
selection is non-empty, selections of different keys are disjoint, and
every stored selection is contained in the shadowed accumulator. -/
def MapInv (st : Loci × List (Groups × Loci)) : Prop :=
  (st.2.map Prod.fst).Nodup ∧
  (∀ p ∈ st.2, p.2.elems ≠ ∅) ∧
  (∀ p ∈ st.2, ∀ q ∈ st.2, p.1 ≠ q.1 → Disjoint p.2.elems q.2.elems) ∧
  (∀ p ∈ st.2, p.2.elems ⊆ st.1.elems)

/-- Example structure containing elements 0 and 1. -/
def exS : Structure := { elems := {0, 1} }

/-- Example aggregate with two disjoint layers of different groups. -/
def exC2 : Clipping :=
  { layers := [{ loci := { structure_ := exS, elems := {0} }, groups := 1 },
               { loci := { structure_ := exS, elems := {1} }, groups := 2 }]
    variant := Variant.pixel
    objects := createClipObjects }

/-- Example aggregate whose earlier layer is fully shadowed by the later
layer of a different group. -/
def exC8 : Clipping :=
  { layers := [{ loci := { structure_ := exS, elems := {0} }, groups := 1 },
               { loci := { structure_ := exS, elems := {0} }, groups := 2 }]
    variant := Variant.pixel
    objects := createClipObjects }

/-- Example single-layer aggregate bound to `exS`. -/
def exC1 : Clipping :=
  { layers := [{ loci := { structure_ := exS, elems := {0} }, groups := 1 }]
    variant := Variant.pixel
    objects := createClipObjects }

/-- Example two-layer aggregate: earlier layer `{0, 1}` in group 1,
later overlapping layer `{0}` in group 2. -/
def exC1Two : Clipping :=
  { layers := [{ loci := { structure_ := exS, elems := {0, 1} }, groups := 1 },
               { loci := { structure_ := exS, elems := {0} }, groups := 2 }]
    variant := Variant.pixel
    objects := createClipObjects }

/-- Example math primitives satisfying sin 0 = 0 and cos 0 = 1. -/
def exMp : MathPrims := { pi := 0, sin := fun x => x, cos := fun x => x + 1 }

/-- The plane descriptor of the compile scenario: no inversion, origin
position, rotation of 0 degrees about the x axis, unit scale. -/
def exDesc : ClipObjectProp :=
  { type := ClipTypeName.plane
    invert := false
    position := { x := 0, y := 0, z := 0 }
    rotation := { axis := { x := 1, y := 0, z := 0 }, angle := 0 }
    scale := { x := 1, y := 1, z := 1 } }

/-- The single-descriptor parameter values of the compile scenario. -/
def exProps1 : Props := { variant := Variant.instance_, objects := [exDesc] }

/-- Parameter values with six descriptors (one more than capacity). -/
def exProps6 : Props := { variant := Variant.instance_, objects := List.replicate 6 exDesc }

/-- The projection of `clipWriteLoop` onto a single scalar column: the
write loop restricted to one stride-1 array and the per-descriptor value
it stores there. -/
def scalarWriteLoop [Inhabited α] (f : ClipObjectProp → α) (ps : List ClipObjectProp)
    (i : Nat) (arr : List α) : List α :=
  match ps with
  | [] => arr
  | p :: rest => scalarWriteLoop f rest (i + 1) (jsSet arr i (f p))

theorem Loci.isEmpty_eq_false_iff (l : Loci) : Loci.isEmpty l = false ↔ l.elems ≠ ∅ := by
  simp [Loci.isEmpty]

theorem Loci.subtract_elems (a b : Loci) : (Loci.subtract a b).elems = a.elems \ b.elems := rfl

theorem Loci.union_elems (a b : Loci) : (Loci.union a b).elems = a.elems ∪ b.elems := rfl

theorem mapHas_eq_false_iff (m : List (Groups × Loci)) (k : Groups) :
    mapHas m k = false ↔ ∀ p ∈ m, p.1 ≠ k := by
  simp [mapHas, List.find?_eq_none]

theorem mapGet_eq_none_iff (m : List (Groups × Loci)) (k : Groups) :
    mapGet m k = Option.none ↔ mapHas m k = false := by
  unfold mapGet mapHas
  cases h : m.find? fun p => decide (p.1 = k) <;> simp [h]

theorem mapGet_mem (m : List (Groups × Loci)) (k : Groups) (v : Loci)
    (h : mapGet m k = Option.some v) : (k, v) ∈ m := by
  unfold mapGet at h
  cases hf : m.find? fun p => decide (p.1 = k) with
  | none => rw [hf] at h; simp at h
  | some q =>
    rw [hf] at h
    simp at h
    have hmem := List.mem_of_find?_eq_some hf
    have hk : q.1 = k := by simpa using List.find?_some hf
    have hq : (k, v) = q := by rw [← hk, ← h]
    rw [hq]; exact hmem

theorem mem_mapSet (m : List (Groups × Loci)) (k : Groups) (v : Loci) (p : Groups × Loci)
    (hp : p ∈ mapSet m k v) : p = (k, v) ∨ (p ∈ m ∧ p.1 ≠ k) := by
  unfold mapSet at hp
  by_cases hh : mapHas m k
  · rw [if_pos hh] at hp
    obtain ⟨q, hq, hfq⟩ := List.mem_map.mp hp
    by_cases hqk : q.1 = k
    · left; rw [if_pos hqk] at hfq; exact hfq.symm
    · right; rw [if_neg hqk] at hfq; rw [hfq] at hq hqk; exact ⟨hq, hqk⟩
  · rw [if_neg hh] at hp
    rcases List.mem_append.mp hp with hp | hp
    · have := (mapHas_eq_false_iff m k).mp (by simpa using hh) p hp
      right; exact ⟨hp, this⟩
    · left; simpa using hp

theorem mapSet_keys (m : List (Groups × Loci)) (k : Groups) (v : Loci) :
    (mapSet m k v).map Prod.fst =
      if mapHas m k then m.map Prod.fst else m.map Prod.fst ++ [k] := by
  unfold mapSet
  by_cases hh : mapHas m k
  · rw [if_pos hh, if_pos hh, List.map_map]
    refine List.map_congr_left fun p _ => ?_
    by_cases hpk : p.1 = k
    · simp [hpk]
    · simp [hpk]
  · rw [if_neg hh, if_neg hh]
    simp

theorem mergeStep_eq_empty (st : Loci × List (Groups × Loci)) (layer : Layer)
    (hE : Loci.isEmpty (Loci.subtract layer.loci st.1) = true) :
    mergeStep st layer = (Loci.union (Loci.subtract layer.loci st.1) st.1, st.2) := by
  unfold mergeStep
  simp [hE]

theorem mergeStep_eq_nonempty (st : Loci × List (Groups × Loci)) (layer : Layer)
    (hE : Loci.isEmpty (Loci.subtract layer.loci st.1) = false) :
    mergeStep st layer =
      (Loci.union (Loci.subtract layer.loci st.1) st.1,
       mapSet st.2 layer.groups
         (match mapGet st.2 layer.groups with
          | Option.some prev => Loci.union (Loci.subtract layer.loci st.1) prev
          | Option.none => Loci.subtract layer.loci st.1)) := by
  unfold mergeStep
  simp [hE]

theorem mergeStep_inv (st : Loci × List (Groups × Loci)) (layer : Layer)
    (h : MapInv st) : MapInv (mergeStep st layer) := by
  obtain ⟨hnd, hne, hdisj, hsub⟩ := h
  have hdl : Disjoint (Loci.subtract layer.loci st.1).elems st.1.elems := by
    rw [Loci.subtract_elems]; exact Finset.sdiff_disjoint
  cases hE : Loci.isEmpty (Loci.subtract layer.loci st.1) with
  | true =>
    rw [mergeStep_eq_empty st layer hE]
    refine ⟨hnd, hne, hdisj, fun p hp => ?_⟩
    exact (hsub p hp).trans (by rw [Loci.union_elems]; exact Finset.subset_union_right)
  | false =>
    rw [mergeStep_eq_nonempty st layer hE]
    have hne' : (Loci.subtract layer.loci st.1).elems ≠ ∅ :=
      (Loci.isEmpty_eq_false_iff _).mp hE
    have hkfresh : mapHas st.2 layer.groups = false → layer.groups ∉ st.2.map Prod.fst := by
      intro hhf hmem
      obtain ⟨p, hp, hpk⟩ := List.mem_map.mp hmem
      exact (mapHas_eq_false_iff _ _).mp hhf p hp hpk
    have main : ∀ v : Loci,
        v.elems ≠ ∅ →
        (∀ q ∈ st.2, q.1 ≠ layer.groups → Disjoint v.elems q.2.elems) →
        v.elems ⊆ (Loci.subtract layer.loci st.1).elems ∪ st.1.elems →
        MapInv (Loci.union (Loci.subtract layer.loci st.1) st.1,
                mapSet st.2 layer.groups v) := by
      intro v hv1 hv2 hv3
      refine ⟨?_, ?_, ?_, ?_⟩
      · rw [mapSet_keys]
        by_cases hh : mapHas st.2 layer.groups
        · rw [if_pos hh]; exact hnd
        · rw [if_neg hh]
          rw [List.nodup_append]
          refine ⟨hnd, List.nodup_singleton _, fun a ha hb => ?_⟩
          have hab : a = layer.groups := by simpa using hb
          exact hkfresh (by simpa using hh) (hab ▸ ha)
      · intro p hp
        rcases mem_mapSet _ _ _ _ hp with hp | hp
        · rw [hp]; exact hv1
        · exact hne p hp.1
      · intro p hp q hq hpq
        rcases mem_mapSet _ _ _ _ hp with hp | hp <;>
          rcases mem_mapSet _ _ _ _ hq with hq | hq
        · rw [hp, hq] at hpq; exact absurd rfl hpq
        · rw [hp]; exact hv2 q hq.1 hq.2
        · rw [hq]; exact (hv2 p hp.1 hp.2).symm
        · exact hdisj p hp.1 q hq.1 hpq
      · intro p hp
        rcases mem_mapSet _ _ _ _ hp with hp | hp
        · rw [hp]; rw [Loci.union_elems]; exact hv3
        · exact (hsub p hp.1).trans (by rw [Loci.union_elems]; exact Finset.subset_union_right)
    cases hG : mapGet st.2 layer.groups with
    | none =>
      have hval := main (Loci.subtract layer.loci st.1) hne'
        (fun q hq _ => Finset.disjoint_of_subset_right (hsub q hq) hdl)
        Finset.subset_union_left
      simpa [hG] using hval
    | some prev =>
      have hprevmem := mapGet_mem _ _ _ hG
      have hval := main (Loci.union (Loci.subtract layer.loci st.1) prev)
        (by
          rw [Loci.union_elems]
          intro hcon
          exact hne' (Finset.union_eq_empty.mp hcon).1)
        (by
          intro q hq hqk
          rw [Loci.union_elems, Finset.disjoint_union_left]
          refine ⟨Finset.disjoint_of_subset_right (hsub q hq) hdl, ?_⟩
          exact hdisj (layer.groups, prev) hprevmem q hq (Ne.symm hqk))
        (by
          rw [Loci.union_elems]
          exact Finset.union_subset_union (le_refl _) (hsub (layer.groups, prev) hprevmem))
      simpa [hG] using hval

theorem mapInv_init (s : Structure) : MapInv (Loci.none s, []) := by
  refine ⟨by simp, ?_, ?_, ?_⟩ <;> intro p hp <;> simp at hp

theorem foldl_mergeStep_inv (ls : List Layer) (st : Loci × List (Groups × Loci))
    (h : MapInv st) : MapInv (ls.foldl mergeStep st) := by
  induction ls generalizing st with
  | nil => exact h
  | cons l rest ih => exact ih _ (mergeStep_inv st l h)

theorem mergeMap_inv (ls : List Layer) (s : Structure) :
    ((mergeMap ls s).map Prod.fst).Nodup ∧
    (∀ p ∈ mergeMap ls s, p.2.elems ≠ ∅) ∧
    (∀ p ∈ mergeMap ls s, ∀ q ∈ mergeMap ls s, p.1 ≠ q.1 → Disjoint p.2.elems q.2.elems) := by
  have h := foldl_mergeStep_inv ls.reverse (Loci.none s, []) (mapInv_init s)
  exact ⟨h.1, h.2.1, h.2.2.1⟩

theorem mergeStep_keys_subset (st : Loci × List (Groups × Loci)) (layer : Layer) (k : Groups)
    (hk : k ∈ (mergeStep st layer).2.map Prod.fst) :
    k ∈ st.2.map Prod.fst ∨ k = layer.groups := by
  cases hE : Loci.isEmpty (Loci.subtract layer.loci st.1) with
  | true => rw [mergeStep_eq_empty st layer hE] at hk; left; exact hk
  | false =>
    rw [mergeStep_eq_nonempty st layer hE] at hk
    rw [mapSet_keys] at hk
    by_cases hh : mapHas st.2 layer.groups
    · rw [if_pos hh] at hk; left; exact hk
    · rw [if_neg hh] at hk
      rcases List.mem_append.mp hk with h | h
      · left; exact h
      · right; simpa using h

theorem foldl_mergeStep_keyOrigin (ls : List Layer) (st : Loci × List (Groups × Loci))
    (p : Groups × Loci) (hp : p ∈ (ls.foldl mergeStep st).2) :
    p.1 ∈ ls.map Layer.groups ∨ p.1 ∈ st.2.map Prod.fst := by
  induction ls generalizing st with
  | nil => right; exact List.mem_map_of_mem Prod.fst hp
  | cons l rest ih =>
    rcases ih (mergeStep st l) hp with h | h
    · left; exact List.mem_cons_of_mem _ h
    · rcases mergeStep_keys_subset st l p.1 h with h | h
      · right; exact h
      · left; rw [List.map_cons, h]; exact List.mem_cons_self _ _

theorem mergeMap_keyOrigin (ls : List Layer) (s : Structure)
    (p : Groups × Loci) (hp : p ∈ mergeMap ls s) :
    p.1 ∈ ls.map Layer.groups := by
  rcases foldl_mergeStep_keyOrigin ls.reverse (Loci.none s, []) p hp with h | h
  · rw [List.map_reverse] at h; exact List.mem_reverse.mp h
  · simp at h

theorem foldl_mergeStep_clean (ls : List Layer) :
    ∀ (sh : Loci) (m : List (Groups × Loci)),
      (∀ l ∈ ls, l.loci.elems ≠ ∅) →
      ls.Pairwise (fun a b => a.groups ≠ b.groups ∧ Disjoint a.loci.elems b.loci.elems) →
      (∀ l ∈ ls, Disjoint l.loci.elems sh.elems) →
      (∀ l ∈ ls, mapHas m l.groups = false) →
      (ls.foldl mergeStep (sh, m)).2 = m ++ ls.map fun l => (l.groups, l.loci) := by
  induction ls with
  | nil => intro sh m _ _ _ _; simp
  | cons l rest ih =>
    intro sh m hne hpw hsh hm
    have hsub_eq : Loci.subtract l.loci sh = l.loci := by
      have : l.loci.elems \ sh.elems = l.loci.elems :=
        Finset.sdiff_eq_self_of_disjoint (hsh l (List.mem_cons_self _ _))
      unfold Loci.subtract
      rw [this]
    have hEfalse : Loci.isEmpty (Loci.subtract l.loci sh) = false := by
      rw [hsub_eq]
      exact (Loci.isEmpty_eq_false_iff _).mpr (hne l (List.mem_cons_self _ _))
    have hstep : mergeStep (sh, m) l = (Loci.union l.loci sh, m ++ [(l.groups, l.loci)]) := by
      rw [mergeStep_eq_nonempty (sh, m) l hEfalse]
      have hget : mapGet m l.groups = Option.none :=
        (mapGet_eq_none_iff m l.groups).mpr (hm l (List.mem_cons_self _ _))
      rw [hget, hsub_eq]
      have hhas : mapHas m l.groups = false := hm l (List.mem_cons_self _ _)
      unfold mapSet
      rw [hhas]
      simp
    rw [List.foldl_cons, hstep]
    have hpw_rest := List.Pairwise.sublist (List.sublist_cons_self l rest) hpw
    have hhead := fun a (ha : a ∈ rest) => List.rel_of_pairwise_cons hpw ha
    rw [ih (Loci.union l.loci sh) (m ++ [(l.groups, l.loci)])
      (fun a ha => hne a (List.mem_cons_of_mem _ ha))
      hpw_rest
      (fun a ha => by
        rw [Loci.union_elems, Finset.disjoint_union_right]
        exact ⟨(hhead a ha).2.symm, hsh a (List.mem_cons_of_mem _ ha)⟩)
      (fun a ha => by
        rw [mapHas_eq_false_iff]
        intro p hp
        rcases List.mem_append.mp hp with hp | hp
        · exact (mapHas_eq_false_iff m a.groups).mp (hm a (List.mem_cons_of_mem _ ha)) p hp
        · have : p = (l.groups, l.loci) := by simpa using hp
          rw [this]
          exact fun hk => (hhead a ha).1 hk)]
    simp

theorem merge_nil (c : Clipping) (h : c.layers = []) : Clipping.merge c = c := by
  obtain ⟨ls, v, o⟩ := c
  change ls = [] at h
  subst h
  rfl

theorem merge_layers_char (c : Clipping) (l0 : Layer) (rest : List Layer)
    (h : c.layers = l0 :: rest) :
    (Clipping.merge c).layers =
      (mergeMap c.layers l0.loci.structure_).map fun p => { loci := p.2, groups := p.1 } := by
  obtain ⟨ls, v, o⟩ := c
  change ls = l0 :: rest at h
  subst h
  rfl

theorem merge_variant (c : Clipping) : (Clipping.merge c).variant = c.variant := by
  obtain ⟨ls, v, o⟩ := c
  cases ls <;> rfl

theorem merge_objects (c : Clipping) : (Clipping.merge c).objects = c.objects := by
  obtain ⟨ls, v, o⟩ := c
  cases ls <;> rfl

theorem merge_output_props (c : Clipping) :
    (∀ l ∈ (Clipping.merge c).layers, l.loci.elems ≠ ∅) ∧
    ((Clipping.merge c).layers.map Layer.groups).Nodup ∧
    ((Clipping.merge c).layers.Pairwise fun a b =>
      a.groups ≠ b.groups ∧ Disjoint a.loci.elems b.loci.elems) ∧
    (∀ l ∈ (Clipping.merge c).layers, l.groups ∈ c.layers.map Layer.groups) := by
  cases hc : c.layers with
  | nil =>
    rw [merge_nil c hc, hc]
    refine ⟨?_, ?_, ?_, ?_⟩ <;> simp
  | cons l0 rest =>
    have hchar := merge_layers_char c l0 rest hc
    obtain ⟨hnd, hne, hdisj⟩ := mergeMap_inv c.layers l0.loci.structure_
    rw [hchar]
    have hcomp : ((fun l : Layer => l.groups) ∘ fun p : Groups × Loci =>
        ({ loci := p.2, groups := p.1 } : Layer)) = Prod.fst := rfl
    refine ⟨?_, ?_, ?_, ?_⟩
    · intro l hl
      obtain ⟨p, hp, hpe⟩ := List.mem_map.mp hl
      rw [← hpe]
      exact hne p hp
    · rw [List.map_map, hcomp]
      exact hnd
    · rw [List.pairwise_map]
      have h' : ((mergeMap c.layers l0.loci.structure_).map Prod.fst).Pairwise (· ≠ ·) := hnd
      have hkeys : (mergeMap c.layers l0.loci.structure_).Pairwise fun p q => p.1 ≠ q.1 :=
        List.pairwise_map.mp h'
      exact hkeys.imp_of_mem fun ha hb hr => ⟨hr, hdisj _ ha _ hb hr⟩
    · intro l hl
      obtain ⟨p, hp, hpe⟩ := List.mem_map.mp hl
      rw [← hpe]
      exact hc ▸ mergeMap_keyOrigin c.layers l0.loci.structure_ p hp

theorem merge_merge_layers (c : Clipping) :
    (Clipping.merge (Clipping.merge c)).layers = ((Clipping.merge c).layers).reverse := by
  obtain ⟨hne, hnd, hpw, _⟩ := merge_output_props c
  cases hml : (Clipping.merge c).layers with
  | nil => rw [merge_nil (Clipping.merge c) hml, hml]; rfl
  | cons m0 mrest =>
    have hchar := merge_layers_char (Clipping.merge c) m0 mrest hml
    have hclean := foldl_mergeStep_clean ((Clipping.merge c).layers.reverse)
      (Loci.none m0.loci.structure_) []
      (fun l hl => hne l (List.mem_reverse.mp hl))
      (by
        rw [List.pairwise_reverse]
        exact hpw.imp fun h => ⟨Ne.symm h.1, h.2.symm⟩)
      (fun l hl => by
        show Disjoint l.loci.elems (Loci.none m0.loci.structure_).elems
        simp [Loci.none])
      (fun l hl => rfl)
    rw [hchar]
    unfold mergeMap
    rw [hclean]
    simp only [List.nil_append, List.map_map]
    have hid : ((fun p : Groups × Loci => ({ loci := p.2, groups := p.1 } : Layer)) ∘
        fun l : Layer => (l.groups, l.loci)) = id := rfl
    rw [hid, List.map_id, hml]

theorem jsSet_spec [Inhabited α] (l : List α) (i : Nat) (v : α) (hlen : l.length = max 5 i) :
    (jsSet l i v).length = max 5 (i + 1) ∧
    (∀ j, j < i → (jsSet l i v)[j]? = l[j]?) ∧
    (jsSet l i v)[i]? = some v := by
  unfold jsSet
  by_cases h : i < l.length
  · rw [if_pos h]
    refine ⟨?_, ?_, ?_⟩
    · rw [List.length_set]; omega
    · intro j hj
      exact List.getElem?_set_ne (by omega)
    · exact List.getElem?_set_eq_of_lt v h
  · rw [if_neg h]
    have hleni : l.length = i := by omega
    have hrep : i - l.length = 0 := by omega
    rw [hrep, List.replicate_zero, List.append_nil]
    refine ⟨?_, ?_, ?_⟩
    · rw [List.length_append, hleni]; simp; omega
    · intro j hj
      exact List.getElem?_append_left (by omega)
    · rw [List.getElem?_append_right (by omega), hleni]
      simp

theorem scalarWriteLoop_spec [Inhabited α] (f : ClipObjectProp → α) (ps : List ClipObjectProp) :
    ∀ (i : Nat) (arr : List α), arr.length = max 5 i →
      (scalarWriteLoop f ps i arr).length = max 5 (i + ps.length) ∧
      (∀ j, j < i → (scalarWriteLoop f ps i arr)[j]? = arr[j]?) ∧
      (∀ j, j < ps.length → (scalarWriteLoop f ps i arr)[i + j]? = (ps[j]?).map f) := by
  induction ps with
  | nil =>
    intro i arr hlen
    refine ⟨by simpa using hlen, fun j hj => rfl, fun j hj => absurd hj (by simp)⟩
  | cons p rest ih =>
    intro i arr hlen
    obtain ⟨hset_len, hset_lo, hset_self⟩ := jsSet_spec arr i (f p) hlen
    obtain ⟨ih_len, ih_lo, ih_entries⟩ := ih (i + 1) (jsSet arr i (f p)) hset_len
    refine ⟨?_, ?_, ?_⟩
    · show (scalarWriteLoop f rest (i + 1) (jsSet arr i (f p))).length = _
      rw [ih_len]
      simp [Nat.add_assoc, Nat.add_comm 1 rest.length]
    · intro j hj
      show (scalarWriteLoop f rest (i + 1) (jsSet arr i (f p)))[j]? = _
      rw [ih_lo j (by omega)]
      exact hset_lo j hj
    · intro j hj
      show (scalarWriteLoop f rest (i + 1) (jsSet arr i (f p)))[i + j]? = _
      cases j with
      | zero =>
        have h1 : (scalarWriteLoop f rest (i + 1) (jsSet arr i (f p)))[i]? = some (f p) := by
          rw [ih_lo i (by omega)]
          exact hset_self
        simpa using h1
      | succ j' =>
        have h1 := ih_entries j' (by simpa using hj)
        have hidx : i + (j' + 1) = i + 1 + j' := by omega
        rw [hidx]
        exact h1.trans (by rw [List.getElem?_cons_succ])

theorem clipWriteLoop_type (mp : MathPrims) (ps : List ClipObjectProp) :
    ∀ (i : Nat) (o : Objects),
      (clipWriteLoop mp ps i o).type =
        scalarWriteLoop (fun p => clipTypeValue p.type) ps i o.type := by
  induction ps with
  | nil => intro i o; rfl
  | cons p rest ih =>
    intro i o
    show (clipWriteLoop mp rest (i + 1) (clipStep mp o i p)).type = _
    rw [ih (i + 1) (clipStep mp o i p)]
    rfl

theorem clipWriteLoop_invert (mp : MathPrims) (ps : List ClipObjectProp) :
    ∀ (i : Nat) (o : Objects),
      (clipWriteLoop mp ps i o).invert =
        scalarWriteLoop (fun p => p.invert) ps i o.invert := by
  induction ps with
  | nil => intro i o; rfl
  | cons p rest ih =>
    intro i o
    show (clipWriteLoop mp rest (i + 1) (clipStep mp o i p)).invert = _
    rw [ih (i + 1) (clipStep mp o i p)]
    rfl

theorem remap_layer_nonempty (c : Clipping) (s : Structure) (l : Layer)
    (hl : l ∈ (Clipping.remap c s).layers) : Loci.isEmpty l.loci = false := by
  have hl' : l ∈ c.layers.filterMap fun layer =>
      if Loci.isEmpty (Loci.remap layer.loci s) then Option.none
      else Option.some { loci := Loci.remap layer.loci s, groups := layer.groups } := hl
  obtain ⟨a, ha, hae⟩ := List.mem_filterMap.mp hl'
  by_cases hE : Loci.isEmpty (Loci.remap a.loci s)
  · rw [if_pos hE] at hae; cases hae
  · rw [if_neg hE] at hae
    have hla : ({ loci := Loci.remap a.loci s, groups := a.groups } : Layer) = l := by
      simpa using hae
    rw [← hla]
    simpa using hE

theorem filter_layer_nonempty (c : Clipping) (t : Structure) (l : Layer)
    (hl : l ∈ (Clipping.filter c t).layers) : Loci.isEmpty l.loci = false := by
  obtain ⟨ls, v, o⟩ := c
  cases ls with
  | nil => simp [Clipping.filter] at hl
  | cons l0 rest =>
    have hl' : l ∈ (l0 :: rest).filterMap fun layer =>
        if Loci.isEmpty (Loci.remap (Loci.remap layer.loci t) l0.loci.structure_) then Option.none
        else Option.some { loci := Loci.remap (Loci.remap layer.loci t) l0.loci.structure_,
                           groups := layer.groups } := hl
    obtain ⟨a, ha, hae⟩ := List.mem_filterMap.mp hl'
    by_cases hE : Loci.isEmpty (Loci.remap (Loci.remap a.loci t) l0.loci.structure_)
    · rw [if_pos hE] at hae; cases hae
    · rw [if_neg hE] at hae
      have hla : ({ loci := Loci.remap (Loci.remap a.loci t) l0.loci.structure_,
                    groups := a.groups } : Layer) = l := by
        simpa using hae
      rw [← hla]
      simpa using hE

/-- C10: `remap`, `merge` and `filter` all carry the input's `variant` and
`objects` (the clip primitive array) through unchanged; only the layer
list differs between input and output. -/
theorem clipping_c10_frame_condition (c : Clipping) (s t : Structure) :
    ((Clipping.remap c s).variant = c.variant ∧ (Clipping.remap c s).objects = c.objects) ∧
    ((Clipping.merge c).variant = c.variant ∧ (Clipping.merge c).objects = c.objects) ∧
    ((Clipping.filter c t).variant = c.variant ∧ (Clipping.filter c t).objects = c.objects) := by
  refine ⟨⟨rfl, rfl⟩, ⟨merge_variant c, merge_objects c⟩, ?_, ?_⟩
  · obtain ⟨ls, v, o⟩ := c; cases ls <;> rfl
  · obtain ⟨ls, v, o⟩ := c; cases ls <;> rfl

/-- C3: no layer of a `remap`, `filter` or `merge` result has an empty
selection, and `merge` of an aggregate without layers returns the input
unchanged. -/
theorem clipping_c3_empty_layer_elimination (c : Clipping) (s t : Structure) (l : Layer) :
    (l ∈ (Clipping.remap c s).layers → Loci.isEmpty l.loci = false) ∧
    (l ∈ (Clipping.filter c t).layers → Loci.isEmpty l.loci = false) ∧
    (l ∈ (Clipping.merge c).layers → Loci.isEmpty l.loci = false) ∧
    (c.layers = [] → Clipping.merge c = c) := by
  refine ⟨remap_layer_nonempty c s l, filter_layer_nonempty c t l, ?_, merge_nil c⟩
  intro hl
  exact (Loci.isEmpty_eq_false_iff _).mpr ((merge_output_props c).1 l hl)

/-- Witness for C3 at concrete inputs: the sole surviving layer of
remap/filter/merge on a one-layer aggregate is non-empty, and merging the
empty aggregate returns it unchanged. -/
theorem clipping_c3_witness :
    Loci.isEmpty ({ loci := { structure_ := exS, elems := {0} }, groups := 1 } : Layer).loci = false ∧
    Clipping.merge Clipping.Empty = Clipping.Empty :=
  ⟨(clipping_c3_empty_layer_elimination exC1 exS exS
      { loci := { structure_ := exS, elems := {0} }, groups := 1 }).1 (by decide),
   (clipping_c3_empty_layer_elimination Clipping.Empty exS exS
      { loci := { structure_ := exS, elems := {0} }, groups := 1 }).2.2.2 rfl⟩

theorem merge_two_layers (s : Structure) (e1 e2 : Finset Nat) (a b : Groups)
    (v : Variant) (o : Objects) (hab : a ≠ b) (he2 : e2 ≠ ∅) :
    (Clipping.merge { layers := [{ loci := { structure_ := s, elems := e1 }, groups := a },
                                 { loci := { structure_ := s, elems := e2 }, groups := b }],
                      variant := v, objects := o }).layers =
      if e1 \ e2 = ∅ then [{ loci := { structure_ := s, elems := e2 }, groups := b }]
      else [{ loci := { structure_ := s, elems := e2 }, groups := b },
            { loci := { structure_ := s, elems := e1 \ e2 }, groups := a }] := by
  have hba : (b = a) = False := by simp [Ne.symm hab]
  simp only [Clipping.merge, mergeMap, List.reverse_cons, List.reverse_nil, List.nil_append,
    List.cons_append, List.foldl_cons, List.foldl_nil]
  unfold mergeStep
  simp only [Loci.subtract, Loci.none, Loci.union, Loci.isEmpty, Finset.sdiff_empty,
    Finset.union_empty, mapGet, mapHas, mapSet, List.find?_nil, List.find?_cons, hba,
    decide_eq_true_eq, he2, decide_False, Option.map_none', Option.map_some']
  by_cases hd : e1 \ e2 = ∅
  · simp [hd]
  · simp [hd, hba]

/-- C1: merge priority and exclusivity for an aggregate of two
overlapping layers: the earlier layer's group `a` (when emitted at all)
receives a selection disjoint from the contested overlap, while the later
layer's group `b` receives a selection containing all of the later
layer's element set — the later layer wins every contested element. -/
theorem clipping_c1_merge_exclusivity (s : Structure) (e1 e2 : Finset Nat) (a b : Groups)
    (v : Variant) (o : Objects) (hab : a ≠ b) (hover : (e1 ∩ e2).Nonempty) :
    (∀ l ∈ (Clipping.merge { layers := [{ loci := { structure_ := s, elems := e1 }, groups := a },
                                        { loci := { structure_ := s, elems := e2 }, groups := b }],
                             variant := v, objects := o }).layers,
        l.groups = a → l.loci.elems ∩ (e1 ∩ e2) = ∅) ∧
    (∃ l ∈ (Clipping.merge { layers := [{ loci := { structure_ := s, elems := e1 }, groups := a },
                                        { loci := { structure_ := s, elems := e2 }, groups := b }],
                             variant := v, objects := o }).layers,
        l.groups = b ∧ e2 ⊆ l.loci.elems) := by
  have he2 : e2 ≠ ∅ := by
    obtain ⟨x, hx⟩ := hover
    rw [Finset.mem_inter] at hx
    exact Finset.ne_empty_of_mem hx.2
  rw [merge_two_layers s e1 e2 a b v o hab he2]
  have hdisj : (e1 \ e2) ∩ (e1 ∩ e2) = ∅ := by
    ext x
    simp only [Finset.mem_inter, Finset.mem_sdiff, Finset.not_mem_empty, iff_false]
    tauto
  by_cases hd : e1 \ e2 = ∅
  · rw [if_pos hd]
    constructor
    · intro l hl hla
      have hlb : l = { loci := { structure_ := s, elems := e2 }, groups := b } := by simpa using hl
      rw [hlb] at hla
      exact absurd hla (Ne.symm hab)
    · exact ⟨{ loci := { structure_ := s, elems := e2 }, groups := b },
        List.mem_singleton_self _, rfl, Finset.Subset.refl e2⟩
  · rw [if_neg hd]
    constructor
    · intro l hl hla
      rcases (by simpa using hl :
          l = { loci := { structure_ := s, elems := e2 }, groups := b } ∨
          l = { loci := { structure_ := s, elems := e1 \ e2 }, groups := a }) with hlb | hlb
      · rw [hlb] at hla
        exact absurd hla (Ne.symm hab)
      · rw [hlb]
        exact hdisj
    · exact ⟨{ loci := { structure_ := s, elems := e2 }, groups := b },
        List.mem_cons_self _ _, rfl, Finset.Subset.refl e2⟩

/-- Witness for C1 at a concrete input: structure with elements 0 and 1,
earlier layer `{0, 1}` in group 1, later layer `{0}` in group 2. -/
theorem clipping_c1_witness :
    (∀ l ∈ (Clipping.merge exC1Two).layers,
      l.groups = 1 → l.loci.elems ∩ (({0, 1} : Finset Nat) ∩ {0}) = ∅) ∧
    (∃ l ∈ (Clipping.merge exC1Two).layers,
      l.groups = 2 ∧ ({0} : Finset Nat) ⊆ l.loci.elems) :=
  clipping_c1_merge_exclusivity exS {0, 1} {0} 1 2 Variant.pixel createClipObjects
    (by decide) (by decide)

/-- Counterexample to C2 as stated: on the two-layer aggregate `exC2`
(disjoint selections, two distinct groups) the second merge emits the two
group layers in the opposite order, so the merged result of a merged
aggregate is not `areEqual` to the singly merged aggregate. -/
theorem clipping_c2_counterexample :
    Clipping.areEqual (Clipping.merge (Clipping.merge exC2)) (Clipping.merge exC2) = false := by
  decide

/-- C2 (amended): merging twice reproduces the layers of a single merge
in reverse order — same layers, loci and groups, with `variant` and
`objects` unchanged.  `merge` is therefore idempotent only up to this
reversal of the emitted layer list, and `areEqual (merge (merge c))
(merge c)` fails whenever the merged result has two or more layers. -/
theorem clipping_c2_merge_idempotence_amended (c : Clipping) :
    (Clipping.merge (Clipping.merge c)).layers = ((Clipping.merge c).layers).reverse ∧
    (Clipping.merge (Clipping.merge c)).variant = (Clipping.merge c).variant ∧
    (Clipping.merge (Clipping.merge c)).objects = (Clipping.merge c).objects :=
  ⟨merge_merge_layers c, merge_variant _, merge_objects _⟩

/-- Counterexample to C8 as stated: in `exC8` the earlier layer (group 1)
is fully shadowed by the later layer (group 2), so group key 1 occurs in
the input but is missing from the merge output — not every distinct input
group key is emitted. -/
theorem clipping_c8_counterexample :
    (1 ∈ exC8.layers.map Layer.groups) ∧ 1 ∉ (Clipping.merge exC8).layers.map Layer.groups := by
  decide

/-- C8 (amended): merge of an aggregate without layers returns it
unchanged; otherwise every emitted group key occurs among the input group
keys and no group key is emitted twice — but a group key whose layers are
fully shadowed by later layers is dropped rather than emitted. -/
theorem clipping_c8_merge_group_keys_amended (c : Clipping) :
    (c.layers = [] → Clipping.merge c = c) ∧
    ((Clipping.merge c).layers.map Layer.groups).Nodup ∧
    (∀ l ∈ (Clipping.merge c).layers, l.groups ∈ c.layers.map Layer.groups) := by
  obtain ⟨hne, hnd, hpw, hsub⟩ := merge_output_props c
  exact ⟨merge_nil c, hnd, hsub⟩

/-- Witness for C8 (amended) at concrete inputs: the empty aggregate
passes through merge unchanged, and on `exC8` the emitted key list is
duplicate-free with its sole key (2) drawn from the input keys. -/
theorem clipping_c8_witness :
    Clipping.merge Clipping.Empty = Clipping.Empty ∧
    ((Clipping.merge exC8).layers.map Layer.groups).Nodup ∧
    (2 : Groups) ∈ exC8.layers.map Layer.groups :=
  ⟨(clipping_c8_merge_group_keys_amended Clipping.Empty).1 rfl,
   (clipping_c8_merge_group_keys_amended exC8).2.1,
   (clipping_c8_merge_group_keys_amended exC8).2.2
     { loci := { structure_ := exS, elems := {0} }, groups := 2 } (by decide)⟩

theorem fromName_eq_none_of_not_isName (n : String) (h : Groups.isName n = false) :
    Groups.fromName n = Option.none := by
  unfold Groups.fromName
  split <;> simp_all [Groups.isName]

/-- Counterexample to C5 as stated: the token list `["one", "seven"]`
contains the unknown token `"seven"`, yet the conversion does not fail —
it returns the flag value for `"one"` (the unknown token contributes no
bits, because the `switch` yields `undefined` and `|=` coerces it to 0). -/
theorem clipping_c5_counterexample :
    Groups.isName ("seven") = false ∧
    Groups.fromNames ["one", "seven"] = Groups.Flag.One := by
  decide

/-- C5 (amended): `fromNames` never fails at runtime; on any token list —
in particular one with unknown tokens — it returns the bitwise-or of the
recognized names' bits, silently ignoring tokens not accepted by the
`isName` predicate (rejection of unknown names is static, via the name
type and `isName`, not a runtime `InvalidArgument` failure). -/
theorem clipping_c5_unknown_names_amended (names : List String) :
    Groups.fromNames names = Groups.fromNames (names.filter fun n => Groups.isName n) := by
  have key : ∀ (ns : List String) (acc : Nat),
      ns.foldl (fun f n => f ||| (Groups.fromName n).getD 0) acc =
      (ns.filter fun n => Groups.isName n).foldl
        (fun f n => f ||| (Groups.fromName n).getD 0) acc := by
    intro ns
    induction ns with
    | nil => intro acc; rfl
    | cons n rest ih =>
      intro acc
      by_cases hn : Groups.isName n
      · rw [List.filter_cons_of_pos hn, List.foldl_cons, List.foldl_cons, ih]
      · rw [List.filter_cons_of_neg (by simpa using hn), List.foldl_cons,
          fromName_eq_none_of_not_isName n (by simpa using hn)]
        show rest.foldl _ (acc ||| 0) = _
        rw [Nat.or_zero]
        exact ih acc
  exact key names Groups.Flag.None

/-- C6: group-name round trip — for every flag value made of the six
defined bits, converting to names and back is the identity, and `toNames`
lists names in the fixed enumeration order (it equals the
enumeration-order filter of the full name list). -/
theorem clipping_c6_group_name_round_trip (x : Nat) (h : x < 64) :
    Groups.fromNames (Groups.toNames x) = x ∧
    Groups.toNames x = (["one", "two", "three", "four", "five", "six"].filter
      fun n => Groups.is x ((Groups.fromName n).getD 0)) := by
  revert h
  revert x
  decide

/-- Witness for C6 at the all-bits value 63. -/
theorem clipping_c6_witness :
    Groups.fromNames (Groups.toNames 63) = 63 ∧
    Groups.toNames 63 = (["one", "two", "three", "four", "five", "six"].filter
      fun n => Groups.is 63 ((Groups.fromName n).getD 0)) :=
  clipping_c6_group_name_round_trip 63 (by decide)

/-- C7: bundle round trip — serializing an aggregate's layers with
`toBundle` and resolving them back with `ofBundle` against a structure
whose root is the structure the selections are bound to reproduces
exactly the same number of layers, in order, with loci-equal selections
and identical groups; and `ofBundle` never drops a layer (one output
layer per input bundle, regardless of emptiness). -/
theorem clipping_c7_bundle_round_trip (c : Clipping) (t : Structure)
    (hroot : ∀ l ∈ c.layers, l.loci.structure_ = t.root)
    (hsub : ∀ l ∈ c.layers, l.loci.elems ⊆ t.root.elems) :
    ((Clipping.ofBundle (Clipping.toBundle c).layers t
        { variant := c.variant, objects := c.objects }).layers.length = c.layers.length) ∧
    (∀ i (h1 : i < (Clipping.ofBundle (Clipping.toBundle c).layers t
          { variant := c.variant, objects := c.objects }).layers.length)
        (h2 : i < c.layers.length),
      ((Clipping.ofBundle (Clipping.toBundle c).layers t
          { variant := c.variant, objects := c.objects }).layers.get ⟨i, h1⟩).groups =
        (c.layers.get ⟨i, h2⟩).groups ∧
      Loci.areEqual ((Clipping.ofBundle (Clipping.toBundle c).layers t
          { variant := c.variant, objects := c.objects }).layers.get ⟨i, h1⟩).loci
        ((c.layers.get ⟨i, h2⟩).loci) = true) ∧
    (∀ (bls : List BundleLayer) (s2 : Structure) (cl : Clip),
      (Clipping.ofBundle bls s2 cl).layers.length = bls.length) := by
  refine ⟨by simp [Clipping.ofBundle, Clipping.toBundle], ?_,
    fun bls s2 cl => by simp [Clipping.ofBundle]⟩
  intro i h1 h2
  have hlen : (Clipping.ofBundle (Clipping.toBundle c).layers t
      { variant := c.variant, objects := c.objects }).layers =
      (c.layers.map fun l =>
        { loci := Bundle.toLoci (Bundle.fromLoci l.loci) t.root, groups := l.groups } : List Layer) := by
    simp [Clipping.ofBundle, Clipping.toBundle, List.map_map]
  have hmem := List.get_mem c.layers i h2
  have hget : (Clipping.ofBundle (Clipping.toBundle c).layers t
      { variant := c.variant, objects := c.objects }).layers.get ⟨i, h1⟩ =
      { loci := Bundle.toLoci (Bundle.fromLoci (c.layers.get ⟨i, h2⟩).loci) t.root,
        groups := (c.layers.get ⟨i, h2⟩).groups } := by
    have h1' : i < (c.layers.map fun l =>
        ({ loci := Bundle.toLoci (Bundle.fromLoci l.loci) t.root, groups := l.groups } : Layer)).length := by
      simpa using h2
    rw [List.get_of_eq hlen ⟨i, h1⟩]
    simp [List.getElem_map]
  rw [hget]
  have hres : Bundle.toLoci (Bundle.fromLoci (c.layers.get ⟨i, h2⟩).loci) t.root =
      (c.layers.get ⟨i, h2⟩).loci := by
    unfold Bundle.toLoci Bundle.fromLoci
    have he : (c.layers.get ⟨i, h2⟩).loci.elems ∩ t.root.elems =
        (c.layers.get ⟨i, h2⟩).loci.elems :=
      Finset.inter_eq_left.mpr (hsub _ hmem)
    rw [he, ← hroot _ hmem]
  refine ⟨rfl, ?_⟩
  rw [hres]
  simp [Loci.areEqual]

/-- Witness for C7 at a concrete input: the one-layer aggregate `exC1`
bound to `exS`, resolved back against `exS` (its own root). -/
theorem clipping_c7_witness :
    ((Clipping.ofBundle (Clipping.toBundle exC1).layers exS
        { variant := exC1.variant, objects := exC1.objects }).layers.length = exC1.layers.length) ∧
    ((Clipping.ofBundle (Clipping.toBundle exC1).layers exS
        { variant := exC1.variant, objects := exC1.objects }).layers.get ⟨0, by decide⟩).groups =
      (exC1.layers.get ⟨0, by decide⟩).groups ∧
    Loci.areEqual ((Clipping.ofBundle (Clipping.toBundle exC1).layers exS
        { variant := exC1.variant, objects := exC1.objects }).layers.get ⟨0, by decide⟩).loci
      ((exC1.layers.get ⟨0, by decide⟩).loci) = true :=
  ⟨(clipping_c7_bundle_round_trip exC1 exS (by decide) (by decide)).1,
   ((clipping_c7_bundle_round_trip exC1 exS (by decide) (by decide)).2.1 0
      (by decide) (by decide)).1,
   ((clipping_c7_bundle_round_trip exC1 exS (by decide) (by decide)).2.1 0
      (by decide) (by decide)).2⟩

/-- Counterexample to C4 as stated: compiling six descriptors into a
fresh array does extend the type column past the fixed capacity of 5 —
its length becomes 6, so descriptor 5 is not truncated away. -/
theorem clipping_c4_counterexample :
    ¬ (getClip exMp exProps6 Option.none).objects.type.length ≤ 5 := by
  decide

/-- C4 (amended): no truncation happens at the 5-slot capacity.
Compiling n > 5 descriptors into a fresh array stores every descriptor:
`count` is n, the type and invert columns grow to length n > 5
(JavaScript arrays extend on out-of-bounds writes), and slot i holds
descriptor i's data for every i < n, including the slots beyond index 4. -/
theorem clipping_c4_truncation_amended (mp : MathPrims) (props : Props)
    (h : 5 < props.objects.length) :
    (getClip mp props Option.none).objects.count = props.objects.length ∧
    (getClip mp props Option.none).objects.type.length = props.objects.length ∧
    (getClip mp props Option.none).objects.invert.length = props.objects.length ∧
    (∀ i, i < props.objects.length →
      (getClip mp props Option.none).objects.type[i]? =
        (props.objects[i]?).map fun p => clipTypeValue p.type) ∧
    (∀ i, i < props.objects.length →
      (getClip mp props Option.none).objects.invert[i]? =
        (props.objects[i]?).map fun p => p.invert) := by
  have hT := scalarWriteLoop_spec (fun p => clipTypeValue p.type) props.objects 0
    createClipObjects.type (by simp [createClipObjects])
  have hI := scalarWriteLoop_spec (fun p => p.invert) props.objects 0
    createClipObjects.invert (by simp [createClipObjects])
  have htype : (getClip mp props Option.none).objects.type =
      scalarWriteLoop (fun p => clipTypeValue p.type) props.objects 0 createClipObjects.type := by
    show (clipWriteLoop mp props.objects 0 createClipObjects).type = _
    exact clipWriteLoop_type mp props.objects 0 createClipObjects
  have hinv : (getClip mp props Option.none).objects.invert =
      scalarWriteLoop (fun p => p.invert) props.objects 0 createClipObjects.invert := by
    show (clipWriteLoop mp props.objects 0 createClipObjects).invert = _
    exact clipWriteLoop_invert mp props.objects 0 createClipObjects
  refine ⟨rfl, ?_, ?_, ?_, ?_⟩
  · rw [htype, hT.1]; omega
  · rw [hinv, hI.1]; omega
  · intro i hi
    rw [htype]
    simpa using hT.2.2 i hi
  · intro i hi
    rw [hinv]
    simpa using hI.2.2 i hi

/-- Witness for C4 (amended) at six concrete plane descriptors: the
compiled count and type-column length are 6, and slot 5 holds the sixth
descriptor's type value. -/
theorem clipping_c4_witness :
    (getClip exMp exProps6 Option.none).objects.count = 6 ∧
    (getClip exMp exProps6 Option.none).objects.type.length = 6 ∧
    (getClip exMp exProps6 Option.none).objects.type[5]? = some 1 := by
  have h := clipping_c4_truncation_amended exMp exProps6 (by decide)
  refine ⟨by simpa using h.1, by simpa using h.2.1, ?_⟩
  have h5 := h.2.2.2.1 5 (by decide)
  simpa using h5

/-- C9: compile scenario — a single plane descriptor with no inversion,
origin position, zero rotation angle about the x axis and unit scale,
compiled into a fresh array, yields count 1, a type column `[1,1,1,1,1]`
(slot 0 written as plane = 1, the other slots keeping their default 1)
and the identity quaternion (0,0,0,1) in rotation slots 0..3, for any
math primitives with sin 0 = 0 and cos 0 = 1. -/
theorem clipping_c9_compile_scenario (mp : MathPrims)
    (hsin : mp.sin 0 = 0) (hcos : mp.cos 0 = 1) :
    (getClip mp exProps1 Option.none).objects.count = 1 ∧
    (getClip mp exProps1 Option.none).objects.type = [1, 1, 1, 1, 1] ∧
    (getClip mp exProps1 Option.none).objects.rotation.take 4 = [0, 0, 0, 1] := by
  refine ⟨rfl, ?_, ?_⟩
  · norm_num [getClip, clipWriteLoop, clipStep, createClipObjects, jsSet, exProps1, exDesc]
    decide
  · norm_num [getClip, clipWriteLoop, clipStep, createClipObjects, jsSet, exProps1, exDesc,
      Quat.toArray, Quat.setAxisAngle, Vec3.toArray, degToRad, hsin, hcos]
    decide

/-- Witness for C9 with the concrete math primitives `exMp`. -/
theorem clipping_c9_witness :
    (getClip exMp exProps1 Option.none).objects.count = 1 ∧
    (getClip exMp exProps1 Option.none).objects.type = [1, 1, 1, 1, 1] ∧
    (getClip exMp exProps1 Option.none).objects.rotation.take 4 = [0, 0, 0, 1] :=
  clipping_c9_compile_scenario exMp (by norm_num [exMp]) (by norm_num [exMp])
